import Mathlib

/-!
Verification of the Juilcal GraphQL event server (src/index.ts).

The development shallowly embeds the query-building and resolver logic of the
four GraphQL operations (events, uniqueTags, distinctVenues, lastUpdated).
JavaScript strings are modelled as Lean `String`; JavaScript truthiness of the
optional arguments is made explicit; the mutable `query`/`params` accumulation
of the `events` resolver is modelled by pure state passing; thrown exceptions
are modelled with `Except`; the per-request connection lifecycle is modelled
by an explicit event trace.
-/

namespace Juilcal

/-! ### Character and string primitives

Executable models of the JavaScript / MySQL string primitives the code uses
(`toLowerCase`, `toUpperCase`, `trim`, `split(",")`, `FIND_IN_SET`).  They are
implemented by structural recursion on `List Char` so that every definition
evaluates inside the kernel. -/

/-- Model of lowercasing one character (ASCII range, as used by the code on
ASCII column names, tag strings and the literal "DESC"). -/
def lowerChar (c : Char) : Char :=
  if 65 ≤ c.toNat ∧ c.toNat ≤ 90 then Char.ofNat (c.toNat + 32) else c

/-- Model of uppercasing one character (ASCII range). -/
def upperChar (c : Char) : Char :=
  if 97 ≤ c.toNat ∧ c.toNat ≤ 122 then Char.ofNat (c.toNat - 32) else c

/-- Model of JavaScript `String.prototype.toLowerCase` / MySQL `LOWER`. -/
def lowerStr (s : String) : String := ⟨s.data.map lowerChar⟩

/-- Model of JavaScript `String.prototype.toUpperCase`. -/
def upperStr (s : String) : String := ⟨s.data.map upperChar⟩

/-- Whitespace test used by the `trim` model. -/
def isWsChar (c : Char) : Bool := c == ' ' || c == '\t' || c == '\n' || c == '\r'

/-- Drop leading whitespace characters. -/
def dropWsHead : List Char → List Char
  | [] => []
  | c :: cs => if isWsChar c then dropWsHead cs else c :: cs

/-- Model of JavaScript `String.prototype.trim`: strip whitespace from both ends. -/
def trimStr (s : String) : String :=
  ⟨(dropWsHead ((dropWsHead s.data).reverse)).reverse⟩

/-- Helper of `splitComma`: accumulates the current (reversed) chunk. -/
def splitCommaAux (cur : List Char) : List Char → List (List Char)
  | [] => [cur.reverse]
  | c :: cs => if c = ',' then cur.reverse :: splitCommaAux [] cs else splitCommaAux (c :: cur) cs

/-- Model of splitting a string at commas, as done both by JavaScript
`split(",")` in `uniqueTags` and by MySQL when interpreting the second
argument of `FIND_IN_SET`. -/
def splitComma (s : String) : List String :=
  (splitCommaAux [] s.data).map (fun l => ⟨l⟩)

/-- 1-based index of `s` in a list, 0 when absent (the return convention of
MySQL `FIND_IN_SET`). -/
def idx1 (s : String) : List String → Nat
  | [] => 0
  | x :: xs =>
    if x = s then 1
    else
      match idx1 s xs with
      | 0 => 0
      | n + 1 => n + 2

/-- Model of MySQL `FIND_IN_SET(s, strlist)`: the 1-based position of `s`
among the comma-separated elements of `strlist`; 0 when `s` contains a comma,
when `strlist` is empty, or when `s` is not an element. -/
def findInSet (s strlist : String) : Nat :=
  if ',' ∈ s.data then 0
  else if strlist = "" then 0
  else idx1 s (splitComma strlist)

/-- Occurrence test for a pattern at the head of a character list. -/
def beginsWithChars : List Char → List Char → Bool
  | [], _ => true
  | _ :: _, [] => false
  | p :: ps, c :: cs => p == c && beginsWithChars ps cs

/-- Occurrence test for a pattern anywhere in a character list. -/
def hasChars (pat : List Char) : List Char → Bool
  | [] => pat.isEmpty
  | c :: cs => beginsWithChars pat (c :: cs) || hasChars pat cs

/-- `containsSubstr s pat` holds when `pat` occurs contiguously in `s`. -/
def containsSubstr (s pat : String) : Bool := hasChars pat.data s.data

/-- Concatenation of a list of strings (used to relate the incrementally
built query string to its clause decomposition). -/
def concatAll : List String → String
  | [] => ""
  | x :: xs => x ++ concatAll xs

/-- Join a list of strings with a separator: model of JavaScript
`Array.prototype.join` as used for the tag conditions. -/
def joinSep (sep : String) : List String → String
  | [] => ""
  | [x] => x
  | x :: y :: xs => x ++ sep ++ joinSep sep (y :: xs)

/-! ### Data model

The GraphQL schema of `src/index.ts` (typeDefs, lines 27–67). -/

/-- One row of the `events` table / the GraphQL `Event` type. -/
structure EventRow where
  title : String
  date_time : String
  venue : String
  link : String
  tags : String
  last_updated : String
deriving Repr, DecidableEq

/-- The GraphQL `Venue` type returned by `distinctVenues`. -/
structure VenueRow where
  venue : String
deriving Repr, DecidableEq

/-- The GraphQL `EventSortInput` input type: both fields optional. -/
structure EventSortInput where
  field : Option String
  order : Option String
deriving Repr, DecidableEq

/-- The argument object of the `events` query.  `none` models an absent (or
`null`) argument.  `limit` and `offset` are GraphQL `Int`s, the rest are
strings or a list of strings. -/
structure EventFilters where
  startDate : Option String
  endDate : Option String
  dayOfWeek : Option String
  timeOfDayBefore : Option String
  timeOfDayAfter : Option String
  tags : Option (List String)
  titleContains : Option String
  venueContains : Option String
  sort : Option EventSortInput
  limit : Option Int
  offset : Option Int
deriving Repr, DecidableEq

/-- The all-absent argument object. -/
def emptyFilters : EventFilters :=
  ⟨none, none, none, none, none, none, none, none, none, none, none⟩

/-! ### Truthiness of the optional arguments

Each `if (x)` guard of the resolver tests JavaScript truthiness: an absent or
`null` argument and the empty string are falsy, every other string is truthy;
`typeof limit === "number" && limit > 0` is true exactly for a present
positive number. -/

/-- Truthiness of an optional string argument (`if (titleContains)` etc.). -/
def strTruthy : Option String → Bool
  | none => false
  | some s => s != ""

/-- The guard `tags && tags.length > 0` of line 127. -/
def tagsPresent : Option (List String) → Bool
  | none => false
  | some ts => decide (0 < ts.length)

/-- The guard `typeof x === "number" && x > 0` of lines 148 and 153. -/
def intPos : Option Int → Bool
  | none => false
  | some n => decide (0 < n)

/-! ### The events query builder (lines 89–158)

`query` starts as the base select-all statement and each present argument
appends one clause to it and pushes its parameter values; the sort block can
throw the validation error.  The `query += ...; params.push(...)` pattern of
each `if` block is captured by `addClause`. -/

/-- One conditional `query += clause; params.push(...ps)` step. -/
def addClause (cond : Bool) (clause : String) (ps : List String)
    (qp : String × List String) : String × List String :=
  if cond then (qp.1 ++ clause, qp.2 ++ ps) else qp

/-- The one generated SQL condition per requested tag (line 130). -/
def tagCondSql : String := "FIND_IN_SET(LOWER(?), LOWER(tags)) > 0"

/-- The tag group clause of lines 129–132: the per-tag conditions joined with
`" OR "`, wrapped in one parenthesised group appended with `AND`. -/
def tagClause (ts : List String) : String :=
  " AND (" ++ joinSep " OR " (ts.map (fun _ => tagCondSql)) ++ ")"

/-- The parameter values pushed for the tag group (line 133): each requested
tag trimmed and lowercased. -/
def tagParams (ts : List String) : List String :=
  ts.map (fun t => lowerStr (trimStr t))

/-- The allow-list of sort fields (line 136). -/
def validSortFields : List String := ["date_time"]

/-- Model of `mysql.escapeId`: wrap the identifier in backquotes, doubling
any backquote it contains. -/
def tickStr : String := "\x60"

/-- Character used by `escapeId` (the backquote). -/
def tickChar : Char := tickStr.data.headD ' '

/-- Double every backquote of an identifier. -/
def doubleTicks : List Char → List Char
  | [] => []
  | c :: cs => if c = tickChar then c :: c :: doubleTicks cs else c :: doubleTicks cs

/-- Model of `mysql.escapeId` (line 145). -/
def escapeId (s : String) : String := tickStr ++ (⟨doubleTicks s.data⟩ : String) ++ tickStr

/-- The sort direction of lines 143–144:
`sort.order && sort.order.toUpperCase() === "DESC" ? "DESC" : "ASC"`. -/
def sortOrderOf (s : EventSortInput) : String :=
  if strTruthy s.order && (upperStr (s.order.getD "") == "DESC") then "DESC" else "ASC"

/-- The sort block of lines 138–146: when `sort && sort.field` is truthy the
field must be in the allow-list — otherwise the validation error is thrown —
and the `ORDER BY` clause is appended. -/
def sortStep (sort : Option EventSortInput) (qp : String × List String) :
    Except String (String × List String) :=
  match sort with
  | none => Except.ok qp
  | some s =>
    if strTruthy s.field then
      if validSortFields.contains (s.field.getD "") then
        Except.ok (qp.1 ++ " ORDER BY " ++ escapeId (s.field.getD "") ++ " " ++ sortOrderOf s, qp.2)
      else Except.error "Invalid sort field"
    else Except.ok qp

/-- The full query construction of the `events` resolver (lines 89–158):
the base statement, the eight conditional filter clauses in source order,
the validated sort clause, then `LIMIT` and `OFFSET` whose parameter values
are pushed as decimal strings. -/
def buildEventsQuery (f : EventFilters) : Except String (String × List String) :=
  let qp := ("SELECT * FROM events WHERE 1=1", ([] : List String))
  let qp := addClause (strTruthy f.titleContains) " AND title LIKE ?"
    ["%" ++ f.titleContains.getD "" ++ "%"] qp
  let qp := addClause (strTruthy f.startDate) " AND DATE(date_time) >= ?" [f.startDate.getD ""] qp
  let qp := addClause (strTruthy f.endDate) " AND DATE(date_time) <= ?" [f.endDate.getD ""] qp
  let qp := addClause (strTruthy f.dayOfWeek) " AND DAYNAME(date_time) = ?" [f.dayOfWeek.getD ""] qp
  let qp := addClause (strTruthy f.timeOfDayBefore) " AND TIME(date_time) <= ?"
    [f.timeOfDayBefore.getD ""] qp
  let qp := addClause (strTruthy f.timeOfDayAfter) " AND TIME(date_time) >= ?"
    [f.timeOfDayAfter.getD ""] qp
  let qp := addClause (strTruthy f.venueContains) " AND venue LIKE ?"
    ["%" ++ f.venueContains.getD "" ++ "%"] qp
  let qp := addClause (tagsPresent f.tags) (tagClause (f.tags.getD []))
    (tagParams (f.tags.getD [])) qp
  match sortStep f.sort qp with
  | Except.error e => Except.error e
  | Except.ok qp =>
    let qp := addClause (intPos f.limit) " LIMIT ?" [toString (f.limit.getD 0)] qp
    let qp := addClause (intPos f.offset) " OFFSET ?" [toString (f.offset.getD 0)] qp
    Except.ok qp

/-! ### The resolvers (lines 69–221)

Each resolver awaits `connectToDatabase()`, runs a `try` body, maps every
error thrown inside the `try` — validation or storage — to its one generic
error in `catch`, and closes the connection in `finally`.  The storage layer
is abstracted: for `events` by a function from the built query and
parameters to an outcome, for the fixed-query resolvers by the outcome
itself.  The connection lifecycle is recorded as an explicit trace:
`acquire` for a successful `connectToDatabase()` and `release` for the
`finally` block's `connection.end()`, which runs after every branch of the
body.

The `...Resolver` definitions below model each resolver from the point
where the connection has been established, i.e. the `try`/`catch`/`finally`
part.  The `await connectToDatabase()` that precedes the `try` (lines 87,
169, 187, 203) can itself reject, and because it sits outside the `try`
such a rejection bypasses the `catch` block; the `...Request` definitions
further down add that fallible acquisition step on top of the resolver
bodies. -/

/-- Connection lifecycle events of one request. -/
inductive ConnEvent where
  | acquire
  | release
deriving Repr, DecidableEq

/-- The `events` resolver (lines 71–166).  The body either fails while
building the query (the `Invalid sort field` throw), fails in
`connection.execute` or returns the rows; `catch` replaces any of these
errors by `"Failed to fetch events"`; `finally` appends the `release`
event. -/
def eventsResolver (f : EventFilters)
    (exec : String → List String → Except String (List EventRow)) :
    Except String (List EventRow) × List ConnEvent :=
  let opened : List ConnEvent := [ConnEvent.acquire]
  let bodyResult : Except String (List EventRow) :=
    match buildEventsQuery f with
    | Except.error _ => Except.error "Failed to fetch events"
    | Except.ok (q, ps) =>
      match exec q ps with
      | Except.error _ => Except.error "Failed to fetch events"
      | Except.ok rows => Except.ok rows
  (bodyResult, opened ++ [ConnEvent.release])

/-- Deduplication with first-occurrence order: model of
`Array.from(new Set(allTags))` (line 177). -/
def dedupKeepFirstAux (seen : List String) : List String → List String
  | [] => []
  | x :: xs =>
    if x ∈ seen then dedupKeepFirstAux seen xs
    else x :: dedupKeepFirstAux (x :: seen) xs

/-- Deduplication preserving the first occurrence of each element. -/
def dedupKeepFirst (l : List String) : List String := dedupKeepFirstAux [] l

/-- The pure body of `uniqueTags` (lines 174–177): split each row's tag
string at commas, trim and lowercase each piece, and deduplicate. -/
def uniqueTagsOf (rows : List EventRow) : List String :=
  dedupKeepFirst ((rows.map (fun r => (splitComma r.tags).map (fun t => lowerStr (trimStr t)))).flatten)

/-- The `uniqueTags` resolver (lines 168–184); its generic error is
`"Failed to fetch unique tags"`. -/
def uniqueTagsResolver (exec : Except String (List EventRow)) :
    Except String (List String) × List ConnEvent :=
  let opened : List ConnEvent := [ConnEvent.acquire]
  let bodyResult : Except String (List String) :=
    match exec with
    | Except.error _ => Except.error "Failed to fetch unique tags"
    | Except.ok rows => Except.ok (uniqueTagsOf rows)
  (bodyResult, opened ++ [ConnEvent.release])

/-- The `distinctVenues` resolver (lines 186–200): maps each returned row to
a `VenueRow`; its generic error is `"Failed to fetch distinct venues"`. -/
def distinctVenuesResolver (exec : Except String (List EventRow)) :
    Except String (List VenueRow) × List ConnEvent :=
  let opened : List ConnEvent := [ConnEvent.acquire]
  let bodyResult : Except String (List VenueRow) :=
    match exec with
    | Except.error _ => Except.error "Failed to fetch distinct venues"
    | Except.ok rows => Except.ok (rows.map (fun r => ⟨r.venue⟩))
  (bodyResult, opened ++ [ConnEvent.release])

/-- The `lastUpdated` resolver (lines 202–219): returns the first row's
`last_updated` when a row exists, `null` otherwise; its generic error is
`"Failed to fetch last_updated"`. -/
def lastUpdatedResolver (exec : Except String (List EventRow)) :
    Except String (Option String) × List ConnEvent :=
  let opened : List ConnEvent := [ConnEvent.acquire]
  let bodyResult : Except String (Option String) :=
    match exec with
    | Except.error _ => Except.error "Failed to fetch last_updated"
    | Except.ok rows =>
      match rows with
      | [] => Except.ok none
      | r :: _ => Except.ok (some r.last_updated)
  (bodyResult, opened ++ [ConnEvent.release])

/-! ### The full requests, acquisition included

`const connection = await connectToDatabase()` executes before the `try` of
every resolver (lines 87, 169, 187, 203).  `conn` is the outcome of that
call: on rejection the error propagates to the caller unmapped, with its
cause intact, and no connection event occurs; on success the
`try`/`catch`/`finally` body runs. -/

/-- The full `events` request: line 87 then the body of lines 88–165. -/
def eventsRequest (conn : Except String Unit) (f : EventFilters)
    (exec : String → List String → Except String (List EventRow)) :
    Except String (List EventRow) × List ConnEvent :=
  match conn with
  | Except.error e => (Except.error e, [])
  | Except.ok _ => eventsResolver f exec

/-- The full `uniqueTags` request: line 169 then the body of lines 170–183. -/
def uniqueTagsRequest (conn : Except String Unit) (st : Except String (List EventRow)) :
    Except String (List String) × List ConnEvent :=
  match conn with
  | Except.error e => (Except.error e, [])
  | Except.ok _ => uniqueTagsResolver st

/-- The full `distinctVenues` request: line 187 then the body of lines
188–199. -/
def distinctVenuesRequest (conn : Except String Unit) (st : Except String (List EventRow)) :
    Except String (List VenueRow) × List ConnEvent :=
  match conn with
  | Except.error e => (Except.error e, [])
  | Except.ok _ => distinctVenuesResolver st

/-- The full `lastUpdated` request: line 203 then the body of lines
204–218. -/
def lastUpdatedRequest (conn : Except String Unit) (st : Except String (List EventRow)) :
    Except String (Option String) × List ConnEvent :=
  match conn with
  | Except.error e => (Except.error e, [])
  | Except.ok _ => lastUpdatedResolver st

/-! ### SQL semantics of the generated tag condition

What the generated condition group means for one stored record, following
MySQL's documented semantics of `FIND_IN_SET` and `LOWER`: the group is true
when at least one of its `OR`-composed conditions
`FIND_IN_SET(LOWER(?), LOWER(tags)) > 0` is true, with the parameters being
exactly the values pushed by the builder (`tagParams`). -/

/-- One generated condition `FIND_IN_SET(LOWER(?), LOWER(tags)) > 0`
evaluated at parameter value `param` over a record whose `tags` column holds
`stored`. -/
def sqlTagCond (param stored : String) : Bool :=
  decide (0 < findInSet (lowerStr param) (lowerStr stored))

/-- The generated `OR` group evaluated over one record: the parameters are
the trimmed, lowercased requested tags pushed by the builder. -/
def rowMatchesTags (requested : List String) (stored : String) : Bool :=
  (tagParams requested).any (fun p => sqlTagCond p stored)

/-- The comma-separated elements of a record's tag list, lowercased for the
case-insensitive comparison; an empty column has no elements (`FIND_IN_SET`
never matches against an empty list). -/
def specTagElems (stored : String) : List String :=
  if stored = "" then [] else splitComma (lowerStr stored)

/-! ### Clause decomposition of the built query

A per-field description of what the builder appends: each present field is
one `(clause, parameters)` pair, each absent field contributes nothing.  The
lemma `build_eq` below proves that the sequential builder produces exactly
the concatenation of these pieces. -/

/-- A field's contribution: one `(clause, params)` pair when present,
nothing when absent. -/
def pieceIf (c : Bool) (s : String) (ps : List String) : List (String × List String) :=
  if c then [(s, ps)] else []

/-- The contributions of the eight optional filter fields, in source order. -/
def clausePieces (f : EventFilters) : List (String × List String) :=
  pieceIf (strTruthy f.titleContains) " AND title LIKE ?" ["%" ++ f.titleContains.getD "" ++ "%"] ++
  pieceIf (strTruthy f.startDate) " AND DATE(date_time) >= ?" [f.startDate.getD ""] ++
  pieceIf (strTruthy f.endDate) " AND DATE(date_time) <= ?" [f.endDate.getD ""] ++
  pieceIf (strTruthy f.dayOfWeek) " AND DAYNAME(date_time) = ?" [f.dayOfWeek.getD ""] ++
  pieceIf (strTruthy f.timeOfDayBefore) " AND TIME(date_time) <= ?" [f.timeOfDayBefore.getD ""] ++
  pieceIf (strTruthy f.timeOfDayAfter) " AND TIME(date_time) >= ?" [f.timeOfDayAfter.getD ""] ++
  pieceIf (strTruthy f.venueContains) " AND venue LIKE ?" ["%" ++ f.venueContains.getD "" ++ "%"] ++
  pieceIf (tagsPresent f.tags) (tagClause (f.tags.getD [])) (tagParams (f.tags.getD []))

/-- The `WHERE` portion of the built query: the base statement followed by
the clauses of the present fields. -/
def wherePart (f : EventFilters) : String :=
  "SELECT * FROM events WHERE 1=1" ++ concatAll ((clausePieces f).map Prod.fst)

/-- The parameter values accumulated by the filter clauses. -/
def whereParams (f : EventFilters) : List String :=
  ((clausePieces f).map Prod.snd).flatten

/-- The `ORDER BY` portion appended by the sort block when it does not
throw. -/
def sortClauseStr : Option EventSortInput → String
  | none => ""
  | some s =>
    if strTruthy s.field then " ORDER BY " ++ escapeId (s.field.getD "") ++ " " ++ sortOrderOf s
    else ""

/-- The `LIMIT` portion. -/
def limitPiece (f : EventFilters) : String := if intPos f.limit then " LIMIT ?" else ""

/-- The parameter pushed by the `LIMIT` clause. -/
def limitParams (f : EventFilters) : List String :=
  if intPos f.limit then [toString (f.limit.getD 0)] else []

/-- The `OFFSET` portion. -/
def offsetPiece (f : EventFilters) : String := if intPos f.offset then " OFFSET ?" else ""

/-- The parameter pushed by the `OFFSET` clause. -/
def offsetParams (f : EventFilters) : List String :=
  if intPos f.offset then [toString (f.offset.getD 0)] else []

/-- Whether the sort block passes validation: no sort input, a falsy field,
or a field in the allow-list. -/
def sortValid : Option EventSortInput → Bool
  | none => true
  | some s => !strTruthy s.field || validSortFields.contains (s.field.getD "")

/-! ### Helper lemmas about the decomposition -/

theorem addClause_eq (c : Bool) (cl : String) (ps : List String) (qp : String × List String) :
    addClause c cl ps qp = (qp.1 ++ (if c then cl else ""), qp.2 ++ (if c then ps else [])) := by
  cases c <;> simp [addClause]

theorem concatAll_append (a b : List String) :
    concatAll (a ++ b) = concatAll a ++ concatAll b := by
  induction a with
  | nil => simp [concatAll]
  | cons x xs ih => simp [concatAll, ih, String.append_assoc]

theorem concatAll_map_fst_pieceIf (c : Bool) (s : String) (ps : List String) :
    concatAll ((pieceIf c s ps).map Prod.fst) = if c then s else "" := by
  cases c <;> simp [pieceIf, concatAll]

theorem flatten_map_snd_pieceIf (c : Bool) (s : String) (ps : List String) :
    ((pieceIf c s ps).map Prod.snd).flatten = if c then ps else [] := by
  cases c <;> simp [pieceIf]

theorem sortStep_eq (s : Option EventSortInput) (qp : String × List String)
    (h : sortValid s = true) :
    sortStep s qp = Except.ok (qp.1 ++ sortClauseStr s, qp.2) := by
  match s with
  | none => simp [sortStep, sortClauseStr]
  | some si =>
    by_cases hf : strTruthy si.field
    · have hc : validSortFields.contains (si.field.getD "") = true := by
        simpa [sortValid, hf] using h
      have hm : si.field.getD "" ∈ validSortFields := by simpa using hc
      simp [sortStep, sortClauseStr, hf, hm, String.append_assoc]
    · simp only [Bool.not_eq_true] at hf
      simp [sortStep, sortClauseStr, hf]

theorem sortStep_invalid (s : EventSortInput) (qp : String × List String)
    (hf : strTruthy s.field = true)
    (hv : validSortFields.contains (s.field.getD "") = false) :
    sortStep (some s) qp = Except.error "Invalid sort field" := by
  have hm : s.field.getD "" ∉ validSortFields := by simpa using hv
  simp [sortStep, hf, hm]

/-- The central decomposition: when the sort input passes validation, the
sequential builder returns exactly the base statement followed by the
present clauses, the sort clause and the pagination clauses, with the
parameters accumulated in the same order. -/
theorem build_eq (f : EventFilters) (h : sortValid f.sort = true) :
    buildEventsQuery f =
      Except.ok (wherePart f ++ sortClauseStr f.sort ++ limitPiece f ++ offsetPiece f,
        whereParams f ++ limitParams f ++ offsetParams f) := by
  simp only [buildEventsQuery, addClause_eq, sortStep_eq _ _ h]
  simp only [wherePart, whereParams, clausePieces, limitPiece, limitParams, offsetPiece,
    offsetParams, List.map_append, concatAll_append, List.flatten_append,
    concatAll_map_fst_pieceIf, flatten_map_snd_pieceIf]
  simp [String.append_assoc, List.append_assoc]

/-- When the sort field is truthy but not in the allow-list, the builder
stops with the validation error. -/
theorem build_invalid (f : EventFilters) (s : EventSortInput) (hs : f.sort = some s)
    (hf : strTruthy s.field = true)
    (hv : validSortFields.contains (s.field.getD "") = false) :
    buildEventsQuery f = Except.error "Invalid sort field" := by
  simp only [buildEventsQuery, hs, sortStep_invalid s _ hf hv]

/-- A successful build implies the sort input passed validation. -/
theorem build_ok_sortValid (f : EventFilters) (x : String × List String)
    (h : buildEventsQuery f = Except.ok x) : sortValid f.sort = true := by
  by_contra hc
  simp only [Bool.not_eq_true] at hc
  match hsf : f.sort with
  | none => rw [hsf] at hc; simp [sortValid] at hc
  | some s =>
    rw [hsf] at hc
    simp only [sortValid, Bool.or_eq_false_iff, Bool.not_eq_false'] at hc
    obtain ⟨hf, hv⟩ := hc
    rw [build_invalid f s hsf hf (by simpa using hv)] at h
    cases h

/-! ### Substring occurrence lemmas -/

theorem beginsWithChars_self_append (p b : List Char) : beginsWithChars p (p ++ b) = true := by
  induction p with
  | nil => rfl
  | cons c cs ih => simp [beginsWithChars, ih]

theorem hasChars_of_begins (pat l : List Char) (h : beginsWithChars pat l = true) :
    hasChars pat l = true := by
  match l with
  | [] =>
    match pat with
    | [] => rfl
    | p :: ps => simp [beginsWithChars] at h
  | c :: cs => simp [hasChars, h]

theorem hasChars_append_left (pat a l : List Char) (h : hasChars pat l = true) :
    hasChars pat (a ++ l) = true := by
  induction a with
  | nil => simpa using h
  | cons c cs ih => simp [hasChars, ih]

/-- A pattern occurring as a contiguous segment of a concatenation is found
by `containsSubstr`. -/
theorem containsSubstr_mid (a pat b : String) :
    containsSubstr (a ++ (pat ++ b)) pat = true := by
  simp only [containsSubstr, String.data_append]
  exact hasChars_append_left _ _ _ (hasChars_of_begins _ _ (beginsWithChars_self_append _ _))

/-- A pattern occurring as a suffix of a concatenation is found. -/
theorem containsSubstr_end (a pat : String) : containsSubstr (a ++ pat) pat = true := by
  have h := containsSubstr_mid a pat ""
  rwa [String.append_empty] at h

/-! ### Characterization of the `FIND_IN_SET` model -/

theorem idx1_pos_iff (s : String) (l : List String) : 0 < idx1 s l ↔ s ∈ l := by
  induction l with
  | nil => simp [idx1]
  | cons x xs ih =>
    by_cases hx : x = s
    · subst hx; simp [idx1]
    · rw [idx1, if_neg hx]
      have hxne : ¬s = x := fun h => hx h.symm
      cases hi : idx1 s xs with
      | zero =>
        have : ¬s ∈ xs := by rw [← ih, hi]; omega
        simp [hxne, this]
      | succ n =>
        have : s ∈ xs := by rw [← ih, hi]; omega
        simp [hxne, this]

theorem splitCommaAux_no_comma (cs : List Char) :
    ∀ cur, ',' ∉ cur → ∀ l ∈ splitCommaAux cur cs, ',' ∉ l := by
  induction cs with
  | nil =>
    intro cur hc l hl
    simp only [splitCommaAux, List.mem_singleton] at hl
    subst hl; simpa using hc
  | cons c cs ih =>
    intro cur hc l hl
    by_cases h : c = ','
    · rw [splitCommaAux, if_pos h] at hl
      rcases List.mem_cons.mp hl with h1 | h2
      · subst h1; simpa using hc
      · exact ih [] (by simp) l h2
    · rw [splitCommaAux, if_neg h] at hl
      refine ih (c :: cur) ?_ l hl
      intro hm
      rcases List.mem_cons.mp hm with h1 | h2
      · exact h h1.symm
      · exact hc h2

theorem splitComma_no_comma (strlist s : String) (h : s ∈ splitComma strlist) :
    ',' ∉ s.data := by
  simp only [splitComma, List.mem_map] at h
  obtain ⟨l, hl, rfl⟩ := h
  exact splitCommaAux_no_comma _ _ (by simp) l hl

/-- `FIND_IN_SET` is positive exactly when the needle is one of the
comma-separated elements of a non-empty list string. -/
theorem findInSet_pos_iff (s strlist : String) :
    0 < findInSet s strlist ↔ (strlist ≠ "" ∧ s ∈ splitComma strlist) := by
  unfold findInSet
  by_cases hcomma : ',' ∈ s.data
  · simp only [hcomma, if_true]
    constructor
    · omega
    · rintro ⟨_, hmem⟩
      exact absurd hcomma (splitComma_no_comma _ _ hmem)
  · by_cases hne : strlist = ""
    · simp [hcomma, hne]
    · simp [hcomma, hne, idx1_pos_iff]

/-! ### Case-mapping lemmas -/

theorem toNat_charOfNat (n : Nat) (h : n < 55296) : (Char.ofNat n).toNat = n := by
  have hv : n.isValidChar := Or.inl h
  simp [Char.ofNat, hv, Char.ofNatAux, Char.toNat, UInt32.toNat, UInt32.ofNatCore]

theorem lowerChar_toNat_of_upper (c : Char) (h : 65 ≤ c.toNat ∧ c.toNat ≤ 90) :
    (lowerChar c).toNat = c.toNat + 32 := by
  rw [lowerChar, if_pos h]
  exact toNat_charOfNat _ (by omega)

theorem lowerChar_idem (c : Char) : lowerChar (lowerChar c) = lowerChar c := by
  by_cases h : 65 ≤ c.toNat ∧ c.toNat ≤ 90
  · have ht := lowerChar_toNat_of_upper c h
    conv_lhs => rw [lowerChar]
    rw [if_neg (by omega)]
  · have hc : lowerChar c = c := by rw [lowerChar, if_neg h]
    rw [hc, hc]

theorem lowerStr_idem (s : String) : lowerStr (lowerStr s) = lowerStr s := by
  simp only [lowerStr, List.map_map]
  exact congrArg String.mk (List.map_congr_left (fun c _ => lowerChar_idem c))

theorem string_eq_empty_iff_data (s : String) : s = "" ↔ s.data = [] := by
  constructor
  · rintro rfl; rfl
  · intro h
    cases s with
    | mk d => cases h; rfl

theorem lowerStr_eq_empty_iff (s : String) : lowerStr s = "" ↔ s = "" := by
  rw [string_eq_empty_iff_data, string_eq_empty_iff_data]
  simp [lowerStr]

/-! ### Placeholder counting -/

/-- The number of `?` placeholders in a query string. -/
def countPlaceholders (s : String) : Nat := s.data.count '?'

theorem countPlaceholders_append (a b : String) :
    countPlaceholders (a ++ b) = countPlaceholders a + countPlaceholders b := by
  simp [countPlaceholders, String.data_append, List.count_append]

theorem countPlaceholders_joinSep_tags (ts : List String) (h : ts ≠ []) :
    countPlaceholders (joinSep " OR " (ts.map fun _ => tagCondSql)) = ts.length := by
  induction ts with
  | nil => cases h rfl
  | cons t ts ih =>
    cases ts with
    | nil => rfl
    | cons t2 ts2 =>
      have ih' := ih (by simp)
      simp only [List.map_cons] at ih' ⊢
      rw [joinSep, countPlaceholders_append, countPlaceholders_append, ih']
      have h1 : countPlaceholders tagCondSql = 1 := rfl
      have h2 : countPlaceholders " OR " = 0 := rfl
      simp [h1, h2]
      omega

theorem tagParams_length (ts : List String) : (tagParams ts).length = ts.length := by
  simp [tagParams]

theorem countPlaceholders_tagClause (ts : List String) (h : ts ≠ []) :
    countPlaceholders (tagClause ts) = ts.length := by
  rw [tagClause, countPlaceholders_append, countPlaceholders_append,
    countPlaceholders_joinSep_tags ts h]
  have h1 : countPlaceholders " AND (" = 0 := rfl
  have h2 : countPlaceholders ")" = 0 := rfl
  omega

theorem countPlaceholders_sortClauseStr (s : Option EventSortInput) (h : sortValid s = true) :
    countPlaceholders (sortClauseStr s) = 0 := by
  match s with
  | none => rfl
  | some si =>
    by_cases hf : strTruthy si.field
    · have hm : si.field.getD "" ∈ validSortFields := by
        have hc : validSortFields.contains (si.field.getD "") = true := by
          simpa [sortValid, hf] using h
        simpa using hc
      have hfield : si.field.getD "" = "date_time" := by simpa [validSortFields] using hm
      rw [sortClauseStr, if_pos hf, hfield]
      rw [sortOrderOf]
      by_cases hd : (strTruthy si.order && (upperStr (si.order.getD "") == "DESC")) = true
      · rw [if_pos hd]; rfl
      · rw [if_neg hd]; rfl
    · simp only [Bool.not_eq_true] at hf
      rw [sortClauseStr, if_neg (by simp [hf])]
      rfl

theorem mem_pieceIf (c : Bool) (s : String) (ps : List String) (p : String × List String)
    (h : p ∈ pieceIf c s ps) : p = (s, ps) ∧ c = true := by
  cases c <;> simp [pieceIf] at h ⊢
  exact h

/-- Every clause the builder can contribute carries exactly as many
parameter values as it has placeholders. -/
theorem clausePieces_count_ok (f : EventFilters) :
    ∀ p ∈ clausePieces f, countPlaceholders p.1 = p.2.length := by
  intro p hp
  simp only [clausePieces, List.mem_append] at hp
  rcases hp with ((((((hp | hp) | hp) | hp) | hp) | hp) | hp) | hp
  all_goals obtain ⟨rfl, hc⟩ := mem_pieceIf _ _ _ _ hp
  · rfl
  · rfl
  · rfl
  · rfl
  · rfl
  · rfl
  · rfl
  · have hne : f.tags.getD [] ≠ [] := by
      cases hg : f.tags with
      | none => rw [hg] at hc; simp [tagsPresent] at hc
      | some ts =>
        rw [hg] at hc
        simp only [tagsPresent, decide_eq_true_eq] at hc
        simp only [Option.getD_some]
        exact List.ne_nil_of_length_pos hc
    simp [countPlaceholders_tagClause _ hne, tagParams_length]

theorem concatAll_count (l : List (String × List String))
    (h : ∀ p ∈ l, countPlaceholders p.1 = p.2.length) :
    countPlaceholders (concatAll (l.map Prod.fst)) = ((l.map Prod.snd).flatten).length := by
  induction l with
  | nil => rfl
  | cons x xs ih =>
    simp only [List.map_cons, concatAll, countPlaceholders_append, List.flatten_cons,
      List.length_append]
    rw [h x (by simp), ih (fun p hp => h p (by simp [hp]))]

/-- The `WHERE` portion has exactly as many placeholders as accumulated
parameters. -/
theorem wherePart_count (f : EventFilters) :
    countPlaceholders (wherePart f) = (whereParams f).length := by
  rw [wherePart, whereParams, countPlaceholders_append,
    concatAll_count _ (clausePieces_count_ok f)]
  have h1 : countPlaceholders "SELECT * FROM events WHERE 1=1" = 0 := rfl
  omega

/-! ### Varying one pagination argument -/

/-- The same request with only the `limit` argument replaced. -/
def withLimit (f : EventFilters) (l : Option Int) : EventFilters :=
  ⟨f.startDate, f.endDate, f.dayOfWeek, f.timeOfDayBefore, f.timeOfDayAfter, f.tags,
    f.titleContains, f.venueContains, f.sort, l, f.offset⟩

/-- The same request with only the `offset` argument replaced. -/
def withOffset (f : EventFilters) (o : Option Int) : EventFilters :=
  ⟨f.startDate, f.endDate, f.dayOfWeek, f.timeOfDayBefore, f.timeOfDayAfter, f.tags,
    f.titleContains, f.venueContains, f.sort, f.limit, o⟩

theorem wherePart_withLimit (f : EventFilters) (x : Option Int) :
    wherePart (withLimit f x) = wherePart f := rfl

theorem whereParams_withLimit (f : EventFilters) (x : Option Int) :
    whereParams (withLimit f x) = whereParams f := rfl

theorem sortClause_withLimit (f : EventFilters) (x : Option Int) :
    sortClauseStr (withLimit f x).sort = sortClauseStr f.sort := rfl

theorem offsetPiece_withLimit (f : EventFilters) (x : Option Int) :
    offsetPiece (withLimit f x) = offsetPiece f := rfl

theorem offsetParams_withLimit (f : EventFilters) (x : Option Int) :
    offsetParams (withLimit f x) = offsetParams f := rfl

theorem limitPiece_withLimit (f : EventFilters) (x : Option Int) :
    limitPiece (withLimit f x) = (if intPos x then " LIMIT ?" else "") := rfl

theorem limitParams_withLimit (f : EventFilters) (x : Option Int) :
    limitParams (withLimit f x) = (if intPos x then [toString (x.getD 0)] else []) := rfl

theorem wherePart_withOffset (f : EventFilters) (x : Option Int) :
    wherePart (withOffset f x) = wherePart f := rfl

theorem whereParams_withOffset (f : EventFilters) (x : Option Int) :
    whereParams (withOffset f x) = whereParams f := rfl

theorem sortClause_withOffset (f : EventFilters) (x : Option Int) :
    sortClauseStr (withOffset f x).sort = sortClauseStr f.sort := rfl

theorem limitPiece_withOffset (f : EventFilters) (x : Option Int) :
    limitPiece (withOffset f x) = limitPiece f := rfl

theorem limitParams_withOffset (f : EventFilters) (x : Option Int) :
    limitParams (withOffset f x) = limitParams f := rfl

theorem offsetPiece_withOffset (f : EventFilters) (x : Option Int) :
    offsetPiece (withOffset f x) = (if intPos x then " OFFSET ?" else "") := rfl

theorem offsetParams_withOffset (f : EventFilters) (x : Option Int) :
    offsetParams (withOffset f x) = (if intPos x then [toString (x.getD 0)] else []) := rfl

theorem limitPiece_count (f : EventFilters) :
    countPlaceholders (limitPiece f) = (limitParams f).length := by
  cases h : intPos f.limit <;> simp [limitPiece, limitParams, h] <;> rfl

theorem offsetPiece_count (f : EventFilters) :
    countPlaceholders (offsetPiece f) = (offsetParams f).length := by
  cases h : intPos f.offset <;> simp [offsetPiece, offsetParams, h] <;> rfl

/-- Occurrence is preserved by prepending. -/
theorem containsSubstr_append_right (x y pat : String) (h : containsSubstr y pat = true) :
    containsSubstr (x ++ y) pat = true := by
  simp only [containsSubstr, String.data_append]
  exact hasChars_append_left _ _ _ h

/-- A pattern occurring at the start of a string is found. -/
theorem containsSubstr_start (pat b : String) : containsSubstr (pat ++ b) pat = true := by
  have h := containsSubstr_mid "" pat b
  rwa [String.empty_append] at h

/-! ## The claims -/

/-- Claim C2: for every combination of present optional filter fields in
`events(filters)`, each present field contributes exactly one parameterized
predicate (`clausePieces` contains one `(clause, params)` pair per present
field, in source order, and nothing for absent fields) and the built query
is the base select-all statement followed by the conjunction (`AND`) of all
contributed predicates, the parameters being accumulated in the same order.
Stated for every request whose sort input passes validation (otherwise no
query is built at all). -/
theorem events_query_and_composition (f : EventFilters) (h : sortValid f.sort = true) :
    buildEventsQuery f =
      Except.ok ("SELECT * FROM events WHERE 1=1" ++ concatAll ((clausePieces f).map Prod.fst)
          ++ sortClauseStr f.sort ++ limitPiece f ++ offsetPiece f,
        ((clausePieces f).map Prod.snd).flatten ++ limitParams f ++ offsetParams f) :=
  build_eq f h

/-- Concrete input used to check claim C2. -/
def c2SampleFilters : EventFilters :=
  ⟨some "2024-01-01", none, some "Friday", none, none, some ["  Jazz ", "Music"],
    some "con", none, none, some 10, none⟩

/-- Witness for claim C2: the decomposition evaluated at a request with five
present fields. -/
theorem events_query_and_composition_check :
    sortValid c2SampleFilters.sort = true ∧
    buildEventsQuery c2SampleFilters =
      Except.ok ("SELECT * FROM events WHERE 1=1 AND title LIKE ? AND DATE(date_time) >= ?"
          ++ " AND DAYNAME(date_time) = ? AND (FIND_IN_SET(LOWER(?), LOWER(tags)) > 0"
          ++ " OR FIND_IN_SET(LOWER(?), LOWER(tags)) > 0) LIMIT ?",
        ["%con%", "2024-01-01", "Friday", "jazz", "music", "10"]) :=
  ⟨rfl, events_query_and_composition c2SampleFilters rfl⟩

/-- Counterexample for claim C7 as stated: `connectToDatabase()` is awaited
before the `try` of every resolver, so its rejection — a storage-layer
failure — propagates to the caller with its underlying cause intact, not as
the operation's generic error: here each operation surfaces
`"connect ECONNREFUSED"`, which differs from the generic error. -/
theorem acquisition_error_unmapped_counterexample :
    (eventsRequest (Except.error "connect ECONNREFUSED") emptyFilters
        (fun _ _ => Except.ok [])).1 = Except.error "connect ECONNREFUSED" ∧
    (Except.error "connect ECONNREFUSED" : Except String (List EventRow)) ≠
      Except.error "Failed to fetch events" ∧
    (uniqueTagsRequest (Except.error "connect ECONNREFUSED") (Except.ok [])).1 =
      Except.error "connect ECONNREFUSED" ∧
    (distinctVenuesRequest (Except.error "connect ECONNREFUSED") (Except.ok [])).1 =
      Except.error "connect ECONNREFUSED" ∧
    (lastUpdatedRequest (Except.error "connect ECONNREFUSED") (Except.ok [])).1 =
      Except.error "connect ECONNREFUSED" :=
  ⟨rfl, fun h => absurd (Except.error.inj h) (by decide), rfl, rfl, rfl⟩

/-- Claim C7 as amended: for every operation, every storage failure
occurring after the connection is acquired — that is, inside the `try`
block, such as a `connection.execute` failure — is caught and re-signaled
as that operation's single generic error, whatever its cause `e`, so the
cause is lost; but a failure of `connectToDatabase()` itself, which runs
before the `try`, propagates to the caller unmapped with its cause
intact. -/
theorem storage_error_mapping (f : EventFilters) (e : String)
    (exec : String → List String → Except String (List EventRow))
    (st : Except String (List EventRow)) :
    ((eventsRequest (Except.ok ()) f (fun _ _ => Except.error e)).1 =
        Except.error "Failed to fetch events" ∧
      (uniqueTagsRequest (Except.ok ()) (Except.error e)).1 =
        Except.error "Failed to fetch unique tags" ∧
      (distinctVenuesRequest (Except.ok ()) (Except.error e)).1 =
        Except.error "Failed to fetch distinct venues" ∧
      (lastUpdatedRequest (Except.ok ()) (Except.error e)).1 =
        Except.error "Failed to fetch last_updated") ∧
    ((eventsRequest (Except.error e) f exec).1 = Except.error e ∧
      (uniqueTagsRequest (Except.error e) st).1 = Except.error e ∧
      (distinctVenuesRequest (Except.error e) st).1 = Except.error e ∧
      (lastUpdatedRequest (Except.error e) st).1 = Except.error e) := by
  refine ⟨⟨?_, rfl, rfl, rfl⟩, ⟨rfl, rfl, rfl, rfl⟩⟩
  show (eventsResolver f (fun _ _ => Except.error e)).1 = Except.error "Failed to fetch events"
  cases hb : buildEventsQuery f <;> simp [eventsResolver, hb]

/-- Claim C8: every request to any of the four operations acquires a
dedicated connection first and releases it last — on success, on validation
failure and on storage failure alike — so the connection trace of every
execution path is exactly `[acquire, release]`. -/
theorem connection_always_released (f : EventFilters)
    (exec : String → List String → Except String (List EventRow))
    (e2 e3 e4 : Except String (List EventRow)) :
    (eventsResolver f exec).2 = [ConnEvent.acquire, ConnEvent.release] ∧
    (uniqueTagsResolver e2).2 = [ConnEvent.acquire, ConnEvent.release] ∧
    (distinctVenuesResolver e3).2 = [ConnEvent.acquire, ConnEvent.release] ∧
    (lastUpdatedResolver e4).2 = [ConnEvent.acquire, ConnEvent.release] :=
  ⟨rfl, rfl, rfl, rfl⟩

/-- Claim C10: for every filter combination for which a query is built, the
number of accumulated parameter values equals the number of `?` placeholders
in the built query string. -/
theorem placeholder_param_invariant (f : EventFilters) (q : String) (ps : List String)
    (h : buildEventsQuery f = Except.ok (q, ps)) :
    countPlaceholders q = ps.length := by
  have hsv := build_ok_sortValid f _ h
  rw [build_eq f hsv] at h
  injection h with h1
  injection h1 with hq hp
  subst hq hp
  rw [countPlaceholders_append, countPlaceholders_append, countPlaceholders_append]
  simp only [List.length_append]
  rw [wherePart_count f, countPlaceholders_sortClauseStr _ hsv, limitPiece_count f,
    offsetPiece_count f]
  omega

/-- Concrete input used to check claim C10. -/
def c10SampleFilters : EventFilters :=
  ⟨none, some "2025-12-31", none, none, none, some ["a", "b", "c"], none, some "hall",
    some ⟨some "date_time", none⟩, some 3, some 4⟩

/-- Witness for claim C10: seven placeholders, seven parameters. -/
theorem placeholder_param_invariant_check :
    countPlaceholders "SELECT * FROM events WHERE 1=1 AND DATE(date_time) <= ? AND venue LIKE ? AND (FIND_IN_SET(LOWER(?), LOWER(tags)) > 0 OR FIND_IN_SET(LOWER(?), LOWER(tags)) > 0 OR FIND_IN_SET(LOWER(?), LOWER(tags)) > 0) ORDER BY \x60date_time\x60 ASC LIMIT ? OFFSET ?" =
      (["2025-12-31", "%hall%", "a", "b", "c", "3", "4"] : List String).length :=
  placeholder_param_invariant c10SampleFilters _ _ rfl

/-- Concrete request whose sort field is not in the allow-list, used for
claim C1. -/
def invalidSortFilters : EventFilters :=
  ⟨none, none, none, none, none, none, none, none, some ⟨some "venue", none⟩, none, none⟩

/-- Counterexample for claim C1 as stated: with an invalid sort field the
operation's surfaced error is `"Failed to fetch events"` — the very same
error it surfaces on a storage failure — so the validation failure is not
distinguishable from the generic storage-failure error. -/
theorem invalid_sort_error_not_distinct :
    (eventsResolver invalidSortFilters (fun _ _ => Except.ok [])).1 =
      Except.error "Failed to fetch events" ∧
    (eventsResolver invalidSortFilters (fun _ _ => Except.error "connection lost")).1 =
      Except.error "Failed to fetch events" :=
  ⟨rfl, rfl⟩

/-- Claim C1 as amended: an `events(filters)` request whose sort field is
truthy and not in the allow-list always fails, but the internally thrown
validation error (`Invalid sort field`) is caught by the resolver's
catch-all handler and re-signaled as the generic `"Failed to fetch events"`
error, regardless of the storage outcome — it does not surface distinctly. -/
theorem invalid_sort_error_masked (f : EventFilters) (s : EventSortInput)
    (exec : String → List String → Except String (List EventRow))
    (hs : f.sort = some s) (hf : strTruthy s.field = true)
    (hv : validSortFields.contains (s.field.getD "") = false) :
    (eventsResolver f exec).1 = Except.error "Failed to fetch events" := by
  simp [eventsResolver, build_invalid f s hs hf hv]

/-- Second concrete request with an invalid sort field, used as the witness
input for the amended claim C1. -/
def invalidSortFilters2 : EventFilters :=
  ⟨none, none, none, none, none, none, none, none, some ⟨some "title", none⟩, none, none⟩

/-- Witness for the amended claim C1. -/
theorem invalid_sort_error_masked_check :
    (eventsResolver invalidSortFilters2 (fun _ _ => Except.ok [])).1 =
      Except.error "Failed to fetch events" :=
  invalid_sort_error_masked invalidSortFilters2 ⟨some "title", none⟩
    (fun _ _ => Except.ok []) rfl rfl rfl

/-- Extract the invalid-sort shape from a failed validation flag. -/
theorem sortValid_false_elim (f : EventFilters) (h : sortValid f.sort = false) :
    ∃ s, f.sort = some s ∧ strTruthy s.field = true ∧
      validSortFields.contains (s.field.getD "") = false := by
  match hsf : f.sort with
  | none => rw [hsf] at h; simp [sortValid] at h
  | some s =>
    rw [hsf] at h
    simp only [sortValid, Bool.or_eq_false_iff, Bool.not_eq_false'] at h
    exact ⟨s, rfl, h.1, by simpa using h.2⟩

/-- A non-positive `limit` argument builds the same query as an absent one. -/
theorem build_limit_nonpos (f : EventFilters) (l : Int) (hl : ¬0 < l) :
    buildEventsQuery (withLimit f (some l)) = buildEventsQuery (withLimit f none) := by
  by_cases hsv : sortValid f.sort = true
  · rw [build_eq (withLimit f (some l)) hsv, build_eq (withLimit f none) hsv]
    simp only [wherePart_withLimit, whereParams_withLimit, sortClause_withLimit,
      offsetPiece_withLimit, offsetParams_withLimit, limitPiece_withLimit, limitParams_withLimit]
    have h1 : intPos (some l) = false := by simp [intPos, hl]
    have h2 : intPos none = false := rfl
    simp [h1, h2]
  · simp only [Bool.not_eq_true] at hsv
    obtain ⟨s, hsf, hf, hv⟩ := sortValid_false_elim f hsv
    rw [build_invalid (withLimit f (some l)) s hsf hf hv,
      build_invalid (withLimit f none) s hsf hf hv]

/-- A non-positive `offset` argument builds the same query as an absent one. -/
theorem build_offset_nonpos (f : EventFilters) (o : Int) (ho : ¬0 < o) :
    buildEventsQuery (withOffset f (some o)) = buildEventsQuery (withOffset f none) := by
  by_cases hsv : sortValid f.sort = true
  · rw [build_eq (withOffset f (some o)) hsv, build_eq (withOffset f none) hsv]
    simp only [wherePart_withOffset, whereParams_withOffset, sortClause_withOffset,
      limitPiece_withOffset, limitParams_withOffset, offsetPiece_withOffset,
      offsetParams_withOffset]
    have h1 : intPos (some o) = false := by simp [intPos, ho]
    have h2 : intPos none = false := rfl
    simp [h1, h2]
  · simp only [Bool.not_eq_true] at hsv
    obtain ⟨s, hsf, hf, hv⟩ := sortValid_false_elim f hsv
    rw [build_invalid (withOffset f (some o)) s hsf hf hv,
      build_invalid (withOffset f none) s hsf hf hv]

/-- Claim C4: a zero or negative `limit` or `offset` argument is ignored —
the built query and parameters are the same as with the argument absent —
while a positive value makes the corresponding clause appear in the built
query. -/
theorem pagination_positive_guard (f : EventFilters) (l o lp : Int)
    (hl : l ≤ 0) (ho : o ≤ 0) (hlp : 0 < lp) :
    buildEventsQuery (withLimit f (some l)) = buildEventsQuery (withLimit f none) ∧
    buildEventsQuery (withOffset f (some o)) = buildEventsQuery (withOffset f none) ∧
    (∀ q ps, buildEventsQuery (withLimit f (some lp)) = Except.ok (q, ps) →
      containsSubstr q " LIMIT ?" = true) ∧
    (∀ q ps, buildEventsQuery (withOffset f (some lp)) = Except.ok (q, ps) →
      containsSubstr q " OFFSET ?" = true) := by
  refine ⟨build_limit_nonpos f l (by omega), build_offset_nonpos f o (by omega), ?_, ?_⟩
  · intro q ps hb
    have hsv := build_ok_sortValid _ _ hb
    rw [build_eq _ hsv] at hb
    injection hb with hb
    injection hb with hq hp
    subst hq
    simp only [wherePart_withLimit, sortClause_withLimit, offsetPiece_withLimit,
      limitPiece_withLimit]
    have h1 : intPos (some lp) = true := by simp [intPos, hlp]
    rw [h1, if_pos rfl]
    rw [String.append_assoc (wherePart f ++ sortClauseStr f.sort) " LIMIT ?" (offsetPiece f)]
    exact containsSubstr_mid _ _ _
  · intro q ps hb
    have hsv := build_ok_sortValid _ _ hb
    rw [build_eq _ hsv] at hb
    injection hb with hb
    injection hb with hq hp
    subst hq
    simp only [wherePart_withOffset, sortClause_withOffset, limitPiece_withOffset,
      offsetPiece_withOffset]
    have h1 : intPos (some lp) = true := by simp [intPos, hlp]
    rw [h1, if_pos rfl]
    exact containsSubstr_end _ _

/-- Concrete input used to check claim C4. -/
def c4SampleFilters : EventFilters :=
  ⟨none, none, none, none, none, some ["x"], none, none, none, none, none⟩

/-- Witness for claim C4: `limit: -1` builds the same query as no limit, and
`limit: 5` puts a `LIMIT` clause in the built query. -/
theorem pagination_positive_guard_check :
    buildEventsQuery (withLimit c4SampleFilters (some (-1))) =
      buildEventsQuery (withLimit c4SampleFilters none) ∧
    containsSubstr "SELECT * FROM events WHERE 1=1 AND (FIND_IN_SET(LOWER(?), LOWER(tags)) > 0) LIMIT ?"
      " LIMIT ?" = true :=
  ⟨(pagination_positive_guard c4SampleFilters (-1) 0 5 (by decide) (by decide) (by decide)).1,
    (pagination_positive_guard c4SampleFilters (-1) 0 5 (by decide) (by decide) (by decide)).2.2.1
      _ _ rfl⟩

/-- Modelled from the spec: the storage engine itself is outside this
repository, so its acceptance of the built statement is modelled from
MySQL's documented grammar, under which `OFFSET` is only valid as part of a
`LIMIT` clause — a query carrying `OFFSET` without `LIMIT` is a syntax error
at execution time.  The flag is well-formedness of the pagination tail given
which of the two clauses the builder emitted. -/
def mysqlPaginationWellFormed (limitPresent offsetPresent : Bool) : Bool :=
  !offsetPresent || limitPresent

/-- Claim C9: when `offset` is a positive integer but `limit` is absent,
zero or negative, the built query ends in an `OFFSET` clause with no `LIMIT`
clause anywhere before it (the pagination tail is exactly `" OFFSET ?"`),
the pagination tail is ill-formed for MySQL, and the request fails with the
generic fetch error rather than silently ignoring the offset. -/
theorem offset_without_limit (f : EventFilters) (o : Int)
    (ho : f.offset = some o) (hop : 0 < o) (hl : intPos f.limit = false)
    (hs : sortValid f.sort = true) :
    buildEventsQuery f =
      Except.ok (wherePart f ++ sortClauseStr f.sort ++ " OFFSET ?",
        whereParams f ++ [toString o]) ∧
    containsSubstr (wherePart f ++ sortClauseStr f.sort ++ " OFFSET ?") " OFFSET ?" = true ∧
    mysqlPaginationWellFormed (intPos f.limit) (intPos f.offset) = false ∧
    (∀ e, (eventsResolver f (fun _ _ => Except.error e)).1 =
      Except.error "Failed to fetch events") := by
  have hoff : intPos f.offset = true := by rw [ho]; simp [intPos, hop]
  have hoff2 : intPos (some o) = true := by simpa [ho] using hoff
  refine ⟨?_, containsSubstr_end _ _, ?_, ?_⟩
  · rw [build_eq f hs]
    simp [limitPiece, limitParams, offsetPiece, offsetParams, hl, hoff, hoff2, ho,
      String.append_empty]
  · simp [mysqlPaginationWellFormed, hl, hoff]
  · intro e
    cases hb : buildEventsQuery f <;> simp [eventsResolver, hb]

/-- Concrete input used to check claim C9: `offset: 7`, no limit. -/
def offsetOnlyFilters : EventFilters :=
  ⟨none, none, none, none, none, none, none, none, none, none, some 7⟩

/-- Witness for claim C9: the built query is exactly the base statement
followed by a lone `OFFSET` clause, and the request fails generically. -/
theorem offset_without_limit_check :
    buildEventsQuery offsetOnlyFilters =
      Except.ok ("SELECT * FROM events WHERE 1=1 OFFSET ?", ["7"]) ∧
    (eventsResolver offsetOnlyFilters (fun _ _ => Except.error "syntax error")).1 =
      Except.error "Failed to fetch events" :=
  ⟨(offset_without_limit offsetOnlyFilters 7 rfl (by decide) rfl rfl).1,
    (offset_without_limit offsetOnlyFilters 7 rfl (by decide) rfl rfl).2.2.2 "syntax error"⟩

/-- Claim C6: with the permitted sort field `date_time`, an absent order —
or any order whose uppercasing is not `DESC` — yields an ascending
`ORDER BY` clause in the built query, while `DESC` in any letter case
yields a descending one. -/
theorem sort_direction (f : EventFilters) (s : EventSortInput) (q : String) (ps : List String)
    (hs : f.sort = some s) (hf : s.field = some "date_time")
    (hb : buildEventsQuery f = Except.ok (q, ps)) :
    ((∀ o, s.order = some o → upperStr o ≠ "DESC") →
      containsSubstr q " ORDER BY \x60date_time\x60 ASC" = true) ∧
    (∀ o, s.order = some o → upperStr o = "DESC" →
      containsSubstr q " ORDER BY \x60date_time\x60 DESC" = true) := by
  have hsv : sortValid f.sort = true := by
    rw [hs]
    simp [sortValid, hf, strTruthy, validSortFields]
  rw [build_eq f hsv] at hb
  injection hb with hb
  injection hb with hq hp
  subst hq
  constructor
  · intro ho
    have hord : sortOrderOf s = "ASC" := by
      rw [sortOrderOf]
      cases hoo : s.order with
      | none => simp [strTruthy]
      | some o =>
        have hne := ho o hoo
        have hbe : (upperStr o == "DESC") = false := beq_eq_false_iff_ne.mpr hne
        simp [hbe]
    have hsc : sortClauseStr f.sort = " ORDER BY \x60date_time\x60 ASC" := by
      rw [hs, sortClauseStr, hf]
      rw [if_pos (show strTruthy (some "date_time") = true from rfl), hord]
      rfl
    rw [hsc, String.append_assoc (wherePart f) " ORDER BY \x60date_time\x60 ASC" (limitPiece f),
      String.append_assoc (wherePart f)
        (" ORDER BY \x60date_time\x60 ASC" ++ limitPiece f) (offsetPiece f),
      String.append_assoc " ORDER BY \x60date_time\x60 ASC" (limitPiece f) (offsetPiece f)]
    exact containsSubstr_mid _ _ _
  · intro o hoo hdesc
    have hone : o ≠ "" := by
      intro h
      rw [h] at hdesc
      exact absurd hdesc (by decide)
    have hord : sortOrderOf s = "DESC" := by
      rw [sortOrderOf, hoo]
      have h1 : strTruthy (some o) = true := by simp [strTruthy, hone]
      have h2 : (upperStr o == "DESC") = true := beq_iff_eq.mpr hdesc
      simp [h1, h2]
    have hsc : sortClauseStr f.sort = " ORDER BY \x60date_time\x60 DESC" := by
      rw [hs, sortClauseStr, hf]
      rw [if_pos (show strTruthy (some "date_time") = true from rfl), hord]
      rfl
    rw [hsc, String.append_assoc (wherePart f) " ORDER BY \x60date_time\x60 DESC" (limitPiece f),
      String.append_assoc (wherePart f)
        (" ORDER BY \x60date_time\x60 DESC" ++ limitPiece f) (offsetPiece f),
      String.append_assoc " ORDER BY \x60date_time\x60 DESC" (limitPiece f) (offsetPiece f)]
    exact containsSubstr_mid _ _ _

/-- Concrete input used to check the ascending half of claim C6. -/
def sortAscFilters : EventFilters :=
  ⟨none, none, none, none, none, none, none, none, some ⟨some "date_time", none⟩, none, none⟩

/-- Concrete input used to check the descending half of claim C6. -/
def sortDescFilters : EventFilters :=
  ⟨none, none, none, none, none, none, none, none, some ⟨some "date_time", some "desc"⟩,
    none, none⟩

/-- Witness for claim C6: an absent order yields `ASC`, a lowercase

`"desc"` yields `DESC`. -/
theorem sort_direction_check :
    containsSubstr "SELECT * FROM events WHERE 1=1 ORDER BY \x60date_time\x60 ASC"
      " ORDER BY \x60date_time\x60 ASC" = true ∧
    containsSubstr "SELECT * FROM events WHERE 1=1 ORDER BY \x60date_time\x60 DESC"
      " ORDER BY \x60date_time\x60 DESC" = true :=
  ⟨(sort_direction sortAscFilters ⟨some "date_time", none⟩ _ _ rfl rfl rfl).1
      (fun o h => by cases h),
    (sort_direction sortDescFilters ⟨some "date_time", some "desc"⟩ _ _ rfl rfl rfl).2
      "desc" rfl rfl⟩

theorem beginsWithChars_append_right (pat l y : List Char)
    (h : beginsWithChars pat l = true) : beginsWithChars pat (l ++ y) = true := by
  induction pat generalizing l with
  | nil => rfl
  | cons p ps ih =>
    match l with
    | [] => simp [beginsWithChars] at h
    | c :: cs =>
      simp only [beginsWithChars, Bool.and_eq_true, beq_iff_eq] at h
      simp only [List.cons_append, beginsWithChars, Bool.and_eq_true, beq_iff_eq]
      exact ⟨h.1, ih cs h.2⟩

theorem hasChars_append_right (pat x y : List Char) (h : hasChars pat x = true) :
    hasChars pat (x ++ y) = true := by
  induction x with
  | nil =>
    have hp : pat = [] := by
      match pat with
      | [] => rfl
      | p :: ps => simp [hasChars] at h
    subst hp
    match y with
    | [] => rfl
    | c :: cs => simp [hasChars, beginsWithChars]
  | cons c cs ih =>
    simp only [hasChars, Bool.or_eq_true] at h
    rcases h with h | h
    · simp only [List.cons_append, hasChars, Bool.or_eq_true]
      exact Or.inl (beginsWithChars_append_right _ _ _ h)
    · simp only [List.cons_append, hasChars, Bool.or_eq_true]
      exact Or.inr (ih h)

/-- Occurrence is preserved by appending. -/
theorem containsSubstr_append_left (x y pat : String) (h : containsSubstr x pat = true) :
    containsSubstr (x ++ y) pat = true := by
  simp only [containsSubstr, String.data_append]
  exact hasChars_append_right _ _ _ h

/-- Every string occurs in itself. -/
theorem containsSubstr_self (pat : String) : containsSubstr pat pat = true := by
  have h := containsSubstr_start pat ""
  rwa [String.append_empty] at h

/-- Counterexample for claim C3 as stated: the requested side is indeed
trimmed and lowercased (first two conjuncts), but surrounding whitespace on
a stored tag element defeats the match — `"jazz"` matches the stored list
`"music,jazz"` yet not `"music, jazz"`, which differs only by whitespace
around a stored element. -/
theorem tag_stored_whitespace_counterexample :
    rowMatchesTags ["jazz"] "music,jazz" = true ∧
    rowMatchesTags ["  JAZZ  "] "music,jazz" = true ∧
    rowMatchesTags ["jazz"] "music, jazz" = false :=
  ⟨rfl, rfl, rfl⟩

/-- Claim C3 as amended: tag matching is case-insensitive on both sides but
trim-insensitive only on the requested tag — a requested tag matches exactly
when its trimmed, lowercased form equals one of the comma-separated elements
of the lowercased (but untrimmed) stored tag string, which must be
non-empty. -/
theorem tag_matching_trims_requested_only (t stored : String) :
    rowMatchesTags [t] stored = true ↔
      (lowerStr stored ≠ "" ∧ lowerStr (trimStr t) ∈ splitComma (lowerStr stored)) := by
  simp only [rowMatchesTags, tagParams, List.map_cons, List.map_nil, List.any_cons,
    List.any_nil, Bool.or_false, sqlTagCond, decide_eq_true_eq]
  rw [lowerStr_idem]
  exact findInSet_pos_iff _ _

/-- Claim C5: with a non-empty requested tag list, (1) the built query
carries the tag conditions joined with `OR` inside one `AND`-ed group, and
(2) a record satisfies the generated group exactly when at least one
requested tag — after trimming and lowercasing — is an element of the
record's comma-delimited tag list (compared case-insensitively). -/
theorem tags_or_group_semantics (f : EventFilters) (ts : List String) (stored : String)
    (ht : f.tags = some ts) (hne : ts ≠ []) (hs : sortValid f.sort = true) :
    (∀ q ps, buildEventsQuery f = Except.ok (q, ps) →
      containsSubstr q (" AND (" ++ joinSep " OR " (ts.map fun _ => tagCondSql) ++ ")") = true) ∧
    (rowMatchesTags ts stored = true ↔
      ∃ t ∈ ts, lowerStr (trimStr t) ∈ specTagElems stored) := by
  constructor
  · intro q ps hb
    rw [build_eq f hs] at hb
    injection hb with hb
    injection hb with hq hp
    subst hq
    show containsSubstr _ (tagClause ts) = true
    have htp : tagsPresent (some ts) = true := by
      simp only [tagsPresent, decide_eq_true_eq]
      exact List.length_pos.mpr hne
    simp only [wherePart, clausePieces, ht, List.map_append, concatAll_append,
      concatAll_map_fst_pieceIf, htp, if_true, Option.getD_some]
    apply containsSubstr_append_left
    apply containsSubstr_append_left
    apply containsSubstr_append_left
    apply containsSubstr_append_right
    apply containsSubstr_append_right
    exact containsSubstr_self _
  · have hpt : ∀ t : String,
        (sqlTagCond (lowerStr (trimStr t)) stored = true) ↔
          lowerStr (trimStr t) ∈ specTagElems stored := by
      intro t
      rw [sqlTagCond, decide_eq_true_eq, lowerStr_idem, findInSet_pos_iff]
      by_cases hst : stored = ""
      · subst hst
        simp [specTagElems, lowerStr]
      · have hne2 : lowerStr stored ≠ "" := fun h => hst ((lowerStr_eq_empty_iff stored).mp h)
        simp [specTagElems, hst, hne2]
    simp only [rowMatchesTags, tagParams, List.any_map, List.any_eq_true, Function.comp]
    exact exists_congr fun t => and_congr_right fun _ => hpt t

/-- Concrete input used to check claim C5. -/
def c5SampleFilters : EventFilters :=
  ⟨none, none, none, none, none, some ["  Jazz "], none, none, none, none, none⟩

/-- Witness for claim C5: the single-tag group occurs in the built query,
and the padded mixed-case request `"  Jazz "` matches the stored list
`"MUSIC,JAZZ"`. -/
theorem tags_or_group_semantics_check :
    containsSubstr "SELECT * FROM events WHERE 1=1 AND (FIND_IN_SET(LOWER(?), LOWER(tags)) > 0)"
      (" AND (" ++ joinSep " OR " ((["  Jazz "] : List String).map fun _ => tagCondSql) ++ ")")
      = true ∧
    rowMatchesTags ["  Jazz "] "MUSIC,JAZZ" = true :=
  ⟨(tags_or_group_semantics c5SampleFilters ["  Jazz "] "MUSIC,JAZZ" rfl (by decide) rfl).1
      _ _ rfl,
    (tags_or_group_semantics c5SampleFilters ["  Jazz "] "MUSIC,JAZZ" rfl (by decide) rfl).2.mpr
      ⟨"  Jazz ", by decide, by decide⟩⟩

end Juilcal
